import Mathlib

/-!
Verification of the gemini terminal renderer (src/src/gemini/__init__.py and
src/gemini/utils.py): a shallow embedding of the scene/entity data model, the
render pipeline, coordinate correction and entity movement, together with
theorems settling the spec claims.

Python integers are embedded as `Int`; the Python `%` operator (sign of the
divisor, floor division based) is `Int.fmod`.  Python strings are embedded as
`String`, and the Python string operations used by the source
(`str.split("\n")`, `str.replace`, `str.strip("\n")`, indexing) are embedded
as explicit recursive functions over the character list, mirroring their
Python semantics, so that every definition evaluates inside the kernel.
-/

namespace Gemini

/-- The ANSI reset code `txtcolours.END` (utils.py line 61): `"\x1b[0m"`. -/
def endCode : String := "\x1b[0m"

/-- The void placeholder character `Scene._void_char` (gemini line 204). -/
def voidChar : Char := '¶'

/-- Python `str.split("\n")` over the character list: splitting on a single
newline character, where the empty string splits to `[""]`. -/
def splitNLChars : List Char → List String
  | [] => [""]
  | c :: t =>
    if c = '\n' then "" :: splitNLChars t
    else
      match splitNLChars t with
      | [] => [String.singleton c]
      | h :: r => (String.singleton c ++ h) :: r

/-- Python `s.split("\n")` for a string `s`. -/
def splitNL (s : String) : List String := splitNLChars s.data

/-- Python `pixel.replace(self._void_char, ' ')` (gemini line 282): since the
pattern and the replacement are single characters this is a character map. -/
def replaceVoid (s : String) : String :=
  ⟨s.data.map (fun c => if c = voidChar then ' ' else c)⟩

/-- Python `image.strip("\n")` (gemini line 144): remove leading and trailing
newline characters. -/
def pyStripNL (s : String) : String :=
  ⟨((s.data.dropWhile (fun c => c = '\n')).reverse.dropWhile (fun c => c = '\n')).reverse⟩

/-- Python `max(l)` over a list of integers, with `0` standing in for the
empty list (the source only applies it guarded by non-emptiness). -/
def pyMax : List Int → Int
  | [] => 0
  | h :: t => t.foldl max h

/-- The message of the `ValueError` raised by `correct_position`
(utils.py line 19). -/
def valueErrorMsg : String := "Position coordinates should have exactly 2 values"

/-- `correct_position(pos, limits)` from utils.py lines 12-24, with `limits`
explicitly supplied (a supplied pair is always truthy in Python, so the
`if not limits` default branch is not taken).  A position without exactly two
components raises `ValueError`; a zero limit then raises `ZeroDivisionError`
inside the loop (axis 0 first); otherwise each axis is reduced with Python's
`%`, which is `Int.fmod`. -/
def correct_position (pos : List Int) (limits : Int × Int) : Except String (List Int) :=
  match pos with
  | [a, b] =>
    if limits.1 = 0 then .error "ZeroDivisionError: integer modulo by zero"
    else if limits.2 = 0 then .error "ZeroDivisionError: integer modulo by zero"
    else .ok [a.fmod limits.1, b.fmod limits.2]
  | _ => .error valueErrorMsg

/-- The two-component special case of `correct_position` used by the render
and movement code, where the position is always a pair built by the caller. -/
def correctPosPair (p : Int × Int) (limits : Int × Int) : Int × Int :=
  (p.1.fmod limits.1, p.2.fmod limits.2)

/-- Modelled from the spec: `Vec2D` addition (the `Vec2D` class is imported
from a utils version missing from src/); the spec states "Vec2D addition is
component-wise integer addition", and positions are embedded as pairs. -/
def addPos (a b : Int × Int) : Int × Int := (a.1 + b.1, a.2 + b.2)

/-- The rendered content of an entity: a plain `Entity` carries a fill
character (gemini line 58), a `Sprite` carries an image string, a transparency
flag and the per-row extra character list (gemini lines 143-151). -/
inductive EntityKind where
  | plain (fill_char : String)
  | sprite (image : String) (transparent : Bool) (extra_characters : List Int)
deriving DecidableEq

/-- The state of an `Entity` (gemini lines 50-64) relevant to rendering and
movement.  `pos` is the stored `_pos`; `size` the `(width, height)` pair;
`collisions` the list of layers collided with. -/
structure Entity where
  pos : Int × Int
  size : Int × Int
  layer : Int
  colour : String
  hidden : Bool
  collisions : List Int
  kind : EntityKind
deriving DecidableEq

/-- The state of a `Scene` (gemini lines 213-218): grid size, background
character and colour, and the child entities in insertion order. -/
structure Scene where
  size : Int × Int
  clear_char : String
  bg_colour : String
  children : List Entity
deriving DecidableEq

/-- `Scene.get_background` (gemini lines 289-291). -/
def get_background (s : Scene) : String :=
  s.bg_colour ++ s.clear_char ++ (if s.bg_colour ≠ "" then endCode else "")

/-- A stage: the grid of cell strings built by `Scene.render`. -/
abbrev Stage := List (List String)

/-- The freshly initialised stage of gemini line 255: height times width
cells, each the background representation. -/
def initStage (s : Scene) : Stage :=
  List.replicate s.size.2.toNat (List.replicate s.size.1.toNat (get_background s))

/-- Read the stage cell `stage[c.2][c.1]` (column, row). -/
def cellAt (st : Stage) (c : Nat × Nat) : Option String :=
  (st[c.2]?).bind (fun row => row[c.1]?)

/-- The write `stage[point[1]][point[0]] = v` of gemini line 282.  Indices
produced by `correct_position` on a positive-size scene are always in bounds;
out of bounds the embedding leaves the stage unchanged (Python would raise). -/
def stageWrite (st : Stage) (c : Nat × Nat) (v : String) : Stage :=
  match st[c.2]? with
  | none => st
  | some row => st.set c.2 (row.set c.1 v)

/-- The zero width space appended for `extra_characters` (gemini line 263). -/
def zwsp : Char := '​'

/-- Gemini lines 262-264: append `n` zero width spaces to the line of each
index listed in `extra_characters` (the source indexes line `i` directly, so
extra indices past the line count would raise; claims only use lists no longer
than the image). -/
def padExtras : List String → List Int → List String
  | lines, [] => lines
  | [], _ :: _ => []
  | l :: ls, n :: ns => (l ++ (⟨List.replicate n.toNat zwsp⟩ : String)) :: padExtras ls ns

/-- The hidden sprite image `" \n" * self.size[1]` of gemini line 138. -/
def hiddenImage : Nat → String
  | 0 => ""
  | n + 1 => " \n" ++ hiddenImage n

/-- The line list of `entity.image` as used by the render loop (gemini lines
260-264): the `image` property substitutes the all-space buffer when hidden,
then each `extra_characters` row gets its zero width spaces. -/
def spriteLines (e : Entity) (img : String) (extras : List Int) : List String :=
  padExtras (splitNL (if e.hidden then hiddenImage e.size.2.toNat else img)) extras

/-- The pixel lookup `entity_image.split("\n")[y][x]` with the bare `except`
of gemini lines 271-274: any out-of-range access yields a space. -/
def pixelAt (lines : List String) (x y : Nat) : String :=
  match lines[y]? with
  | none => " "
  | some row =>
    match row.data[x]? with
    | none => " "
    | some c => String.singleton c

/-- The cell string written at gemini line 282:
`f"{entity.colour}{pixel.replace(void, ' ')}{END if entity.colour else ''}"`. -/
def cellValue (colour : String) (pixel : String) : String :=
  colour ++ replaceVoid pixel ++ (if colour ≠ "" then endCode else "")

/-- The pixel an entity contributes at local cell `(x, y)` (gemini lines
270-278), `none` when the transparent-space `continue` skips the cell.  A
hidden plain entity's `fill_char` property returns `parent.get_background()`
(gemini lines 31-33); the embedding takes the rendering scene as the parent,
which `add_to_scene` maintains for every child. -/
def entityPixel (scene : Scene) (e : Entity) : Nat → Nat → Option String :=
  match e.kind with
  | .plain f => fun _ _ => some (if e.hidden then get_background scene else f)
  | .sprite img tr extras => fun x y =>
    let p := pixelAt (spriteLines e img extras) x y
    if p = " " ∧ tr = true then none else some p

/-- The x-loop bound `entity.size[0] + extra_length` of gemini lines 259-267,
where `extra_length` is `max(entity.extra_characters)` when non-empty. -/
def loopWidth (e : Entity) : Nat :=
  match e.kind with
  | .plain _ => e.size.1.toNat
  | .sprite _ _ extras => (e.size.1 + (if extras ≠ [] then pyMax extras else 0)).toNat

/-- The ordered list of stage writes one entity performs (gemini lines
267-282): `x` is the outer loop, `y` the inner one, each painted cell is the
wraparound-corrected absolute position, and the written string is the
colourised pixel. -/
def entityWrites (scene : Scene) (e : Entity) : List ((Nat × Nat) × String) :=
  (List.range (loopWidth e)).flatMap (fun x =>
    (List.range e.size.2.toNat).filterMap (fun y =>
      (entityPixel scene e x y).map (fun p =>
        ((((e.pos.1 + (x : Int)).fmod scene.size.1).toNat,
          ((e.pos.2 + (y : Int)).fmod scene.size.2).toNat),
         cellValue e.colour p))))

/-- Paint one entity onto the stage: perform its writes in loop order. -/
def paintEntity (scene : Scene) (st : Stage) (e : Entity) : Stage :=
  (entityWrites scene e).foldl (fun acc wr => stageWrite acc wr.1 wr.2) st

/-- Stable insertion into a descending-by-layer list: the inserted entity
precedes every element whose layer is at most its own, matching Python's
stable `sorted(key=layer, reverse=True)` for an element that originally came
first. -/
def insertDesc (e : Entity) : List Entity → List Entity
  | [] => [e]
  | a :: t => if a.layer ≤ e.layer then e :: a :: t else a :: insertDesc e t

/-- `sorted(entity_list, key=lambda x: x.layer, reverse=True)` of gemini line
257: the stable descending sort by layer. -/
def sortLayerDesc : List Entity → List Entity
  | [] => []
  | e :: t => insertDesc e (sortLayerDesc t)

/-- The candidate entity selection of gemini line 256: a non-empty `layers`
list other than `[-1]` filters children by layer membership, anything falsy
or `[-1]` selects all children.  The empty list stands for Python's `None`
as well (both are falsy and select everything). -/
def candidates (scene : Scene) (layers : List Int) : List Entity :=
  if layers ≠ [] ∧ layers ≠ [-1] then
    scene.children.filter (fun e => layers.contains e.layer)
  else scene.children

/-- The stage built by `Scene.render` before any display handling (gemini
lines 255-282): background-filled grid, candidates sorted by layer
descending, painted in that order. -/
def renderStage (scene : Scene) (layers : List Int) : Stage :=
  (sortLayerDesc (candidates scene layers)).foldl (paintEntity scene) (initStage scene)

/-- Python `str(i)[-1:]` for a natural number: its last decimal digit. -/
def lastDigit (n : Nat) : String := toString (n % 10)

/-- The in-place mutation `_render_stage` performs on the stage when
`show_coord_numbers` is set (gemini lines 228-231): a label column prepended
to every row, then a header row whose length is read off the first already
widened row. -/
def insertCoordNumbers (st : Stage) : Stage :=
  let withCol := st.enum.map (fun p => lastDigit p.1 :: p.2)
  let w := match withCol.head? with
    | some row => row.length - 1
    | none => 0
  (" " :: (List.range w).map lastDigit) :: withCol

/-- `Scene.render` as far as the returned stage is concerned (gemini lines
239-287): the stage is built, and when `is_display` is set `_render_stage`
is called on it, which mutates the very list object that is afterwards
returned; so the returned stage carries the coordinate labels exactly when
both `is_display` and `show_coord_numbers` are set. -/
def render (scene : Scene) (is_display : Bool) (layers : List Int)
    (show_coord_numbers : Bool) : Stage :=
  let stage := renderStage scene layers
  if is_display && show_coord_numbers then insertCoordNumbers stage else stage

/-- `Scene.render` including the `render_functions` callbacks of gemini lines
250-252, embedded as state transformers on the scene: when `run_functions`
is set they run in order before the stage is built, and the possibly mutated
scene is what the rest of the render reads. -/
def renderWithFunctions (scene : Scene) (fns : List (Scene → Scene))
    (run_functions : Bool) (is_display : Bool) (layers : List Int)
    (show_coord_numbers : Bool) : Scene × Stage :=
  let s := if run_functions then fns.foldl (fun acc f => f acc) scene else scene
  (s, render s is_display layers show_coord_numbers)

/-- Modelled from the spec: the `Axis` helper is imported from a utils
version missing from src/.  Its use at gemini lines 88-104 fixes the
semantics: `value` indexes the size tuple (X is 0, Y is 1), and
`vector a w` places `a` on the axis and `w` on the perpendicular one,
matching the spec's "checks every cell along the entity's leading edge (the
far row/column in the direction of travel)". -/
inductive Axis where
  | X
  | Y
deriving DecidableEq

/-- Modelled from the spec: `axis.vector(a, b=0)`, the displacement `a` along
the axis paired with `b` across it. -/
def Axis.vector : Axis → Int → Int → Int × Int
  | .X, a, w => (a, w)
  | .Y, a, w => (w, a)

/-- `self.size[axis.value]` of gemini line 94: the entity extent along the
movement axis. -/
def Axis.alongSize : Axis → Int × Int → Int
  | .X, s => s.1
  | .Y, s => s.2

/-- `self.size[0 if axis is Axis.Y else 1]` of gemini line 93: the entity
extent across the movement axis. -/
def Axis.perpSize : Axis → Int × Int → Int
  | .X, s => s.2
  | .Y, s => s.1

/-- `Scene.is_entity_at` (gemini lines 293-299): with a non-empty bake use
it, otherwise render fresh (all layers when `-1` occurs in the list); the
queried cell is wraparound-corrected and compared with the background. -/
def is_entity_at (scene : Scene) (layers : List Int) (bake : Stage)
    (pos : Int × Int) : Bool :=
  let rendered := if bake ≠ [] then bake else
    renderStage scene (if (-1 : Int) ∈ layers then [] else layers)
  let p := correctPosPair pos scene.size
  decide (((cellAt rendered (p.1.toNat, p.2.toNat)).getD "") ≠ get_background scene)

/-- The inner wall scan of `step_collide` (gemini lines 92-97) at step `j`:
some cell along the leading edge one past the entity in the travel direction,
offset by `j` steps, tests as occupied against the bake. -/
def edgeHit (scene : Scene) (bake : Stage) (esize : Int × Int) (ecoll : List Int)
    (ax : Axis) (p : Int) (pos : Int × Int) (j : Nat) : Bool :=
  (List.range (ax.perpSize esize).toNat).any (fun wall_p =>
    is_entity_at scene ecoll bake
      (addPos pos (ax.vector ((if 0 < p then ax.alongSize esize else -1)
        + (j : Int) * (if 0 < p then 1 else -1)) (wall_p : Int))))

/-- `step_collide` of gemini lines 88-101 as a transformer of the pair
(position, has_collided): nothing happens for a zero delta; otherwise the
loop advances while collision-free and breaks at the first step whose leading
edge hits, so the travelled distance is the first hitting step index (or the
full magnitude), and the position is updated through the wraparound-correcting
`pos` setter. -/
def stepCollide (scene : Scene) (bake : Stage) (esize : Int × Int)
    (ecoll : List Int) (ax : Axis) (p : Int)
    (st : (Int × Int) × Bool) : (Int × Int) × Bool :=
  if p = 0 then st
  else
    let polarity : Int := if 0 < p then 1 else -1
    let colliding : Int :=
      match (List.range p.natAbs).find? (edgeHit scene bake esize ecoll ax p st.1) with
      | some j => (j : Int)
      | none => (p.natAbs : Int)
    let collided := (List.range p.natAbs).any (edgeHit scene bake esize ecoll ax p st.1)
    (correctPosPair (addPos st.1 (ax.vector (colliding * polarity) 0)) scene.size,
     st.2 || collided)

/-- The outcome of `Entity.move` (gemini lines 69-117): the final stored
position, the 0/1 return value, and whether the `move_functions` callbacks
fire (`run_functions and not has_collided`, line 113). -/
structure MoveResult where
  pos : Int × Int
  ret : Nat
  ranFunctions : Bool
deriving DecidableEq

/-- The resolution of the `collide` parameter (gemini lines 73-74): `None`
falls back to the truthiness of the entity's `collisions` list. -/
def resolveCollide (e : Entity) (collide : Option Bool) : Bool :=
  match collide with
  | some b => b
  | none => !e.collisions.isEmpty

/-- The `self.hidden = True` performed before baking (gemini line 84): the
moving entity is hidden inside its parent's child list.  Children are
compared by value; Python compares by identity, which agrees whenever the
child list has no duplicate equal to the mover. -/
def hideSelf (scene : Scene) (e : Entity) : Scene :=
  { scene with children := scene.children.map (fun c => if c = e then { c with hidden := true } else c) }

/-- `Entity.move` (gemini lines 69-117) for an entity attached to `scene`,
without the display side effect: zero requested movement skips the move code;
with collisions resolved off the full delta is applied through the
wraparound-correcting `pos` setter; with collisions on the parent is baked
once with the mover hidden (restricted to the mover's collision layers) and
the X axis is stepped fully before the Y axis. -/
def entityMove (scene : Scene) (e : Entity) (mv : Int × Int)
    (collide : Option Bool) (run_functions : Bool) : MoveResult :=
  let doCollide := resolveCollide e collide
  let stepped :=
    if mv = ((0 : Int), (0 : Int)) then (e.pos, false)
    else if doCollide then
      let bake := renderStage (hideSelf scene e) e.collisions
      stepCollide scene bake e.size e.collisions .Y mv.2
        (stepCollide scene bake e.size e.collisions .X mv.1 (e.pos, false))
    else (correctPosPair (addPos e.pos mv) scene.size, false)
  { pos := stepped.1, ret := if stepped.2 then 1 else 0,
    ranFunctions := run_functions && !stepped.2 }

/-- The image stored by `Sprite.__init__` (gemini line 144): the constructor
argument stripped of leading and trailing newlines. -/
def sprite_stored_image (image : String) : String := pyStripNL image

/-- `len(max(image.split("\n"), key=len))` of gemini line 148: the length of
the longest line of the raw constructor argument. -/
def maxLineLen (image : String) : Nat :=
  ((splitNL image).map String.length).foldl Nat.max 0

/-- The size assigned by `Sprite.__init__` (gemini line 148), computed from
the raw constructor argument, not from the stripped stored image:
`(len(max(image.split("\n"), key=len)), image.count("\n") + 1)`. -/
def sprite_size (image : String) : Int × Int :=
  ((maxLineLen image : Int), (image.data.count '\n' : Int) + 1)

/-- `Scene.add_to_scene` (gemini lines 234-237) on the child id list of one
scene: append, unconditionally. -/
def add_to_scene (children : List Nat) (e : Nat) : List Nat := children ++ [e]

/-- The `Entity.parent` setter (gemini lines 24-29) over a world of child id
lists indexed by scene id: remove the entity from its current parent's
children only when the new value differs from the current parent or is
`None` (Python `list.remove` takes the first occurrence), then, for a
non-`None` value, `add_to_scene` appends it and updates the back reference.
The returned pair is (updated child lists, updated `_parent`). -/
def parent_setter (self : Nat) (selfParent : Option Nat) (value : Option Nat)
    (ch : Nat → List Nat) : (Nat → List Nat) × Option Nat :=
  let ch1 : Nat → List Nat :=
    match selfParent with
    | some p =>
      if selfParent ≠ value ∨ value = none then
        (fun t => if t = p then (ch p).erase self else ch t)
      else ch
    | none => ch
  match value with
  | some v => ((fun t => if t = v then add_to_scene (ch1 v) self else ch1 t), some v)
  | none => (ch1, selfParent)

/-- The scene of the C7 code bug input: size `(2, 1)`, background `░`, no
children. -/
def coordScene : Scene := { size := (2, 1), clear_char := "░", bg_colour := "", children := [] }

/-- The scene of the C8 counterexample: background `░`, no children. -/
def mutScene : Scene := { size := (1, 1), clear_char := "░", bg_colour := "", children := [] }

/-- The mutating render callback of the C8 counterexample. -/
def mutFn : Scene → Scene := fun s => { s with clear_char := "X" }

/-- The stage has `h` rows of `w` cells each. -/
def stageDims (st : Stage) (w h : Nat) : Prop :=
  st.length = h ∧ ∀ row ∈ st, row.length = w

/-- The value of the last write a sequence performs at a cell, in loop
order: a later write overrides an earlier one. -/
def lastWrite : List ((Nat × Nat) × String) → (Nat × Nat) → Option String
  | [], _ => none
  | wr :: t, c =>
    match lastWrite t c with
    | some v => some v
    | none => if wr.1 = c then some wr.2 else none

/-- The smaller-layer entity of the C1 witness scene. -/
def paintA : Entity :=
  { pos := (0, 0), size := (1, 1), layer := 2, colour := "", hidden := false,
    collisions := [], kind := .plain "A" }

/-- The larger-layer entity of the C1 witness scene. -/
def paintB : Entity :=
  { pos := (0, 0), size := (1, 1), layer := 5, colour := "", hidden := false,
    collisions := [], kind := .plain "B" }

/-- The C1 witness scene: two overlapping plain entities with layers 2 and
5. -/
def paintScene : Scene :=
  { size := (3, 1), clear_char := "░", bg_colour := "", children := [paintA, paintB] }

/-- The hidden transparent sprite of the C5 witness. -/
def hiddenSpriteW : Entity :=
  { pos := (0, 0), size := (1, 1), layer := 0, colour := "", hidden := true,
    collisions := [], kind := .sprite "A" true [] }

/-- The hidden uncoloured plain entity of the C5 witness. -/
def hiddenPlainW : Entity :=
  { pos := (0, 0), size := (1, 1), layer := 0, colour := "", hidden := true,
    collisions := [], kind := .plain "P" }

/-- The scene of the C5 witness. -/
def hiddenScene : Scene :=
  { size := (2, 1), clear_char := "░", bg_colour := "", children := [] }

/-- The hidden non-transparent sprite of the C5 counterexample. -/
def hiddenOpaque : Entity :=
  { pos := (0, 0), size := (1, 1), layer := 0, colour := "", hidden := true,
    collisions := [], kind := .sprite "A" false [] }

/-- The scene of the C5 counterexample. -/
def hiddenCexScene : Scene :=
  { size := (1, 1), clear_char := "░", bg_colour := "", children := [hiddenOpaque] }

/-- The moving entity of the C3 witness: collides with all layers. -/
def moverM : Entity :=
  { pos := (0, 0), size := (1, 1), layer := 0, colour := "", hidden := false,
    collisions := [-1], kind := .plain "M" }

/-- The blocking entity of the C3 witness, one cell to the right. -/
def blockerB : Entity :=
  { pos := (1, 0), size := (1, 1), layer := 0, colour := "", hidden := false,
    collisions := [], kind := .plain "█" }

/-- The scene of the C3 witness. -/
def moveScene : Scene :=
  { size := (3, 1), clear_char := "░", bg_colour := "", children := [moverM, blockerB] }

/-- The downward-moving entity of the C3 witness's Y-axis part. -/
def moverV : Entity :=
  { pos := (0, 0), size := (1, 1), layer := 0, colour := "", hidden := false,
    collisions := [-1], kind := .plain "V" }

/-- The blocking entity of the C3 witness's Y-axis part, one cell below. -/
def blockerV : Entity :=
  { pos := (0, 1), size := (1, 1), layer := 0, colour := "", hidden := false,
    collisions := [], kind := .plain "█" }

/-- The scene of the C3 witness's Y-axis part. -/
def moveSceneY : Scene :=
  { size := (1, 3), clear_char := "░", bg_colour := "", children := [moverV, blockerV] }

/-! Theorems. -/

/-- On a pair with nonzero limits, `correct_position` agrees with
`correctPosPair`. -/
theorem correct_position_eq_pair (a b : Int) (s : Int × Int)
    (h1 : s.1 ≠ 0) (h2 : s.2 ≠ 0) :
    correct_position [a, b] s = .ok [(correctPosPair (a, b) s).1, (correctPosPair (a, b) s).2] := by
  simp [correct_position, correctPosPair, h1, h2]

theorem fmod_nonneg_of_pos (a : Int) {b : Int} (hb : 0 < b) : 0 ≤ a.fmod b := by
  rw [Int.fmod_eq_emod a (le_of_lt hb)]
  exact Int.emod_nonneg a (by omega)

theorem fmod_lt_of_pos (a : Int) {b : Int} (hb : 0 < b) : a.fmod b < b := by
  rw [Int.fmod_eq_emod a (le_of_lt hb)]
  exact Int.emod_lt_of_pos a hb

theorem fmod_eq_self {a b : Int} (h0 : 0 ≤ a) (h1 : a < b) : a.fmod b = a := by
  rw [Int.fmod_eq_emod a (by omega)]
  exact Int.emod_eq_of_lt h0 h1

theorem correctPosPair_eq_self {p s : Int × Int} (hx0 : 0 ≤ p.1) (hx1 : p.1 < s.1)
    (hy0 : 0 ≤ p.2) (hy1 : p.2 < s.2) : correctPosPair p s = p := by
  simp [correctPosPair, fmod_eq_self hx0 hx1, fmod_eq_self hy0 hy1]

/-- Claim C4: for every position with exactly two integer components and
positive limits on both axes, `correct_position` returns a pair with each
component in `[0, limit)`, and applying `correct_position` again to the
result returns it unchanged. -/
theorem correct_position_bounds_idempotent (p : List Int) (s : Int × Int)
    (hp : p.length = 2) (h1 : 0 < s.1) (h2 : 0 < s.2) :
    ∃ a b, correct_position p s = .ok [a, b] ∧ 0 ≤ a ∧ a < s.1 ∧ 0 ≤ b ∧ b < s.2 ∧
      correct_position [a, b] s = .ok [a, b] := by
  have hs1 : s.1 ≠ 0 := by omega
  have hs2 : s.2 ≠ 0 := by omega
  match p, hp with
  | [x, y], _ =>
    refine ⟨x.fmod s.1, y.fmod s.2, ?_, ?_, ?_, ?_, ?_, ?_⟩
    · simp [correct_position, hs1, hs2]
    · exact fmod_nonneg_of_pos x h1
    · exact fmod_lt_of_pos x h1
    · exact fmod_nonneg_of_pos y h2
    · exact fmod_lt_of_pos y h2
    · simp [correct_position, hs1, hs2,
        fmod_eq_self (fmod_nonneg_of_pos x h1) (fmod_lt_of_pos x h1),
        fmod_eq_self (fmod_nonneg_of_pos y h2) (fmod_lt_of_pos y h2)]

/-- Witness for C4 at the concrete input `[7, -3]` with limits `(5, 4)`. -/
theorem correct_position_bounds_idempotent_witness :
    (([7, -3] : List Int).length = 2 ∧ (0 : Int) < 5 ∧ (0 : Int) < 4) ∧
      (∃ a b, correct_position [7, -3] (5, 4) = .ok [a, b] ∧ 0 ≤ a ∧ a < 5 ∧
        0 ≤ b ∧ b < 4 ∧ correct_position [a, b] (5, 4) = .ok [a, b]) :=
  ⟨by decide, correct_position_bounds_idempotent [7, -3] (5, 4) rfl (by decide) (by decide)⟩

/-- Claim C9: with explicitly supplied nonzero limits, `correct_position`
raises the `ValueError` exactly when the position does not have two
components, and with two components it returns normally. -/
theorem correct_position_valueerror_iff (p : List Int) (s : Int × Int)
    (h1 : s.1 ≠ 0) (h2 : s.2 ≠ 0) :
    (correct_position p s = .error valueErrorMsg ↔ p.length ≠ 2) ∧
      (p.length = 2 → ∃ r, correct_position p s = .ok r) := by
  match p with
  | [] => exact ⟨by simp [correct_position], by simp⟩
  | [_] => exact ⟨by simp [correct_position], by simp⟩
  | _ :: _ :: _ :: _ =>
    refine ⟨by simp [correct_position], fun h => ?_⟩
    simp at h
  | [x, y] =>
    constructor
    · simp [correct_position, h1, h2]
    · intro _
      exact ⟨[x.fmod s.1, y.fmod s.2], by simp [correct_position, h1, h2]⟩

/-- Witness for C9 at the malformed input `[1, 2, 3]` and the well-formed
input `[1, 2]`, with limits `(5, 4)`. -/
theorem correct_position_valueerror_iff_witness :
    ((5 : Int) ≠ 0 ∧ (4 : Int) ≠ 0) ∧
      ((correct_position [1, 2, 3] (5, 4) = .error valueErrorMsg ↔
          ([1, 2, 3] : List Int).length ≠ 2) ∧
        (([1, 2, 3] : List Int).length = 2 → ∃ r, correct_position [1, 2, 3] (5, 4) = .ok r)) :=
  ⟨by decide, correct_position_valueerror_iff [1, 2, 3] (5, 4) (by decide) (by decide)⟩

/-- Claim C10: assigning an entity's `parent` to the scene it is already
attached to appends it to that scene's children a second time: the setter's
removal condition is false when the new value equals the current parent and
is not `None`, while `add_to_scene` appends unconditionally. -/
theorem parent_setter_duplicates (s e : Nat) (ch : Nat → List Nat)
    (hcount : (ch s).count e = 1) :
    (parent_setter e (some s) (some s) ch).1 s = ch s ++ [e] ∧
      ((parent_setter e (some s) (some s) ch).1 s).count e = 2 ∧
      (parent_setter e (some s) (some s) ch).2 = some s := by
  have h1 : (parent_setter e (some s) (some s) ch).1 s = ch s ++ [e] := by
    simp [parent_setter, add_to_scene]
  refine ⟨h1, ?_, rfl⟩
  rw [h1, List.count_append, hcount]
  simp

/-- Witness for C10: a scene whose children hold entity 7 once; after the
self-assignment they hold it twice. -/
theorem parent_setter_duplicates_witness :
    ((fun _ : Nat => [7]) 0).count 7 = 1 ∧
      (parent_setter 7 (some 0) (some 0) (fun _ => [7])).1 0 = [7, 7] := by
  refine ⟨by decide, ?_⟩
  have h := parent_setter_duplicates 0 7 (fun _ => [7]) (by decide)
  rw [h.1]
  decide

/-- Claim C2: moving an attached entity with collisions resolved off applies
the full delta through the wraparound-correcting position setter and returns
0 (with the movement callbacks firing when requested).  The position
invariant `0 <= pos < size` holds for every attached entity, whose stored
position always went through the setter. -/
theorem entity_move_no_collide (scene : Scene) (e : Entity) (mv : Int × Int)
    (collide : Option Bool) (rf : Bool)
    (hnc : resolveCollide e collide = false)
    (hx0 : 0 ≤ e.pos.1) (hx1 : e.pos.1 < scene.size.1)
    (hy0 : 0 ≤ e.pos.2) (hy1 : e.pos.2 < scene.size.2) :
    entityMove scene e mv collide rf =
      { pos := correctPosPair (addPos e.pos mv) scene.size, ret := 0, ranFunctions := rf } := by
  unfold entityMove
  rw [hnc]
  by_cases hmv : mv = ((0 : Int), (0 : Int))
  · subst hmv
    have hadd : addPos e.pos (0 : Int × Int) = e.pos := by
      simp [addPos]
    simp [hadd, correctPosPair_eq_self hx0 hx1 hy0 hy1]
  · have hmv' : mv ≠ 0 := by simpa using hmv
    simp [hmv']

/-- Witness for C2: the spec's concrete scenario, an entity at `(1, 1)` on a
`(5, 3)` scene moved by `(10, 0)` lands at `x = (1 + 10) mod 5 = 1`. -/
theorem entity_move_no_collide_witness :
    entityMove { size := (5, 3), clear_char := "░", bg_colour := "", children := [] }
        { pos := (1, 1), size := (1, 1), layer := 0, colour := "", hidden := false,
          collisions := [], kind := .plain "█" }
        (10, 0) none true =
      { pos := (1, 1), ret := 0, ranFunctions := true } := by
  have h := entity_move_no_collide
    { size := (5, 3), clear_char := "░", bg_colour := "", children := [] }
    { pos := (1, 1), size := (1, 1), layer := 0, colour := "", hidden := false,
      collisions := [], kind := .plain "█" }
    (10, 0) none true rfl (by decide) (by decide) (by decide) (by decide)
  rw [h]
  decide

/-- Claim C7 (code bug): `render` with `is_display=True` and
`show_coord_numbers=True` returns the stage mutated in place by
`_render_stage`, so the returned grid carries the single-digit header row and
label column, against the claim and against render's own docstring ("These
numbers will not show in the render function's raw output regardless"); with
`is_display=False` the labels are indeed absent. -/
theorem render_coord_numbers_leak :
    render coordScene true [] true = [[" ", "0", "1"], ["0", "░", "░"]] ∧
      render coordScene false [] true = [["░", "░"]] := by
  constructor <;> decide

/-- Counterexample to claim C8 as stated: a scene with a registered
`render_functions` callback that rewrites `clear_char` is mutated by
`render(is_display=False)` with the default `run_functions=True`. -/
theorem render_functions_mutate_cex :
    (renderWithFunctions mutScene [mutFn] true false [] false).1 ≠ mutScene := by
  decide

/-- Claim C8 as amended: rendering without display mutates no scene or
entity state provided the `render_functions` callbacks do not run (the
collision-probe bake indeed passes `run_functions=False`) or none are
registered. -/
theorem render_no_display_no_mutation (scene : Scene) (fns : List (Scene → Scene))
    (rf isd : Bool) (layers : List Int) (sc : Bool)
    (h : rf = false ∨ fns = []) :
    (renderWithFunctions scene fns rf isd layers sc).1 = scene := by
  rcases h with h | h
  · subst h
    rfl
  · subst h
    cases rf <;> rfl

/-- Witness for the amended C8 with `run_functions=False` on a scene with a
registered mutating callback. -/
theorem render_no_display_no_mutation_witness :
    ((false = false ∨ ([mutFn] : List (Scene → Scene)) = []) ∧
      (renderWithFunctions mutScene [mutFn] false false [] false).1 = mutScene) :=
  ⟨Or.inl rfl, render_no_display_no_mutation mutScene [mutFn] false false [] false (Or.inl rfl)⟩

/-- Stripping newlines is the identity on a string with no leading and no
trailing newline. -/
theorem pyStripNL_eq_self {s : String} (hhead : s.data.head? ≠ some '\n')
    (hlast : s.data.getLast? ≠ some '\n') : pyStripNL s = s := by
  have h1 : s.data.dropWhile (fun c => c = '\n') = s.data := by
    cases hd : s.data with
    | nil => rfl
    | cons c t =>
      have hc : c ≠ '\n' := by
        intro h
        exact hhead (by rw [hd, h]; rfl)
      simp [List.dropWhile_cons, hc]
  have h2 : s.data.reverse.dropWhile (fun c => c = '\n') = s.data.reverse := by
    cases hd : s.data.reverse with
    | nil => rfl
    | cons c t =>
      have hc : s.data.reverse.head? = some c := by rw [hd]; rfl
      rw [List.head?_reverse] at hc
      have hne : c ≠ '\n' := fun h => hlast (by rw [hc, h])
      simp [hd, List.dropWhile_cons, hne]
  unfold pyStripNL
  rw [h1, h2, List.reverse_reverse]

/-- Counterexample to claim C6 as stated: the image `"a\n"` is stored
stripped as `"a"`, whose dimensions are `(1, 1)`, but the constructor
computes the size from the raw argument and assigns `(1, 2)`. -/
theorem sprite_size_unstripped_cex :
    sprite_stored_image "a\n" = "a" ∧ sprite_size "a\n" = (1, 2) ∧
      sprite_size "a" = (1, 1) ∧ ((1 : Int), (2 : Int)) ≠ ((1 : Int), (1 : Int)) := by
  refine ⟨by decide, by decide, by decide, by decide⟩

/-- Claim C6 as amended: the stored image is the constructor argument
stripped of leading and trailing newlines, but the size is `(longest line
length, newline count + 1)` of the raw argument; the two coincide exactly
when the argument has no leading and no trailing newline, in which case the
size equals the stripped image's dimensions as the claim states. -/
theorem sprite_size_of_raw_image (image : String)
    (hhead : image.data.head? ≠ some '\n') (hlast : image.data.getLast? ≠ some '\n') :
    sprite_stored_image image = image ∧
      sprite_size image = sprite_size (sprite_stored_image image) := by
  have h : pyStripNL image = image := pyStripNL_eq_self hhead hlast
  exact ⟨h, by rw [sprite_stored_image, h]⟩

/-- Witness for the amended C6 at the image `"ab\ncd"`. -/
theorem sprite_size_of_raw_image_witness :
    ("ab\ncd".data.head? ≠ some '\n' ∧ "ab\ncd".data.getLast? ≠ some '\n') ∧
      sprite_stored_image "ab\ncd" = "ab\ncd" ∧
      sprite_size "ab\ncd" = sprite_size (sprite_stored_image "ab\ncd") :=
  ⟨by decide, sprite_size_of_raw_image "ab\ncd" (by decide) (by decide)⟩

theorem stageDims_initStage (s : Scene) :
    stageDims (initStage s) s.size.1.toNat s.size.2.toNat := by
  constructor
  · simp [initStage]
  · intro row hr
    rw [List.eq_of_mem_replicate hr]
    simp

theorem stageDims_stageWrite {st : Stage} {w h : Nat} (hd : stageDims st w h)
    (c : Nat × Nat) (v : String) : stageDims (stageWrite st c v) w h := by
  unfold stageWrite
  cases hrow : st[c.2]? with
  | none => exact hd
  | some row =>
    refine ⟨by rw [List.length_set]; exact hd.1, ?_⟩
    intro r hr
    rcases List.mem_or_eq_of_mem_set hr with h1 | h1
    · exact hd.2 r h1
    · subst h1
      rw [List.length_set]
      exact hd.2 row (List.getElem?_mem hrow)

theorem cellAt_stageWrite_self {st : Stage} {w h : Nat} (hd : stageDims st w h)
    {c : Nat × Nat} (hx : c.1 < w) (hy : c.2 < h) (v : String) :
    cellAt (stageWrite st c v) c = some v := by
  have hy' : c.2 < st.length := by rw [hd.1]; exact hy
  obtain ⟨row, hrow⟩ : ∃ row, st[c.2]? = some row := by
    rw [List.getElem?_eq_getElem hy']
    exact ⟨_, rfl⟩
  have hxr : c.1 < row.length := by
    rw [hd.2 row (List.getElem?_mem hrow)]
    exact hx
  unfold stageWrite cellAt
  rw [hrow]
  have h1 : (st.set c.2 (row.set c.1 v))[c.2]? = some (row.set c.1 v) :=
    List.getElem?_set_self hy'
  rw [h1]
  show (row.set c.1 v)[c.1]? = some v
  exact List.getElem?_set_self hxr

theorem cellAt_stageWrite_other {st : Stage} {c cq : Nat × Nat} (hne : cq ≠ c)
    (v : String) : cellAt (stageWrite st c v) cq = cellAt st cq := by
  unfold stageWrite cellAt
  cases hrow : st[c.2]? with
  | none => rfl
  | some row =>
    by_cases hy : cq.2 = c.2
    · have hx : c.1 ≠ cq.1 := by
        intro hcon
        exact hne (Prod.ext hcon.symm hy)
      rw [hy]
      have hlt : c.2 < st.length := by
        rcases List.getElem?_eq_some_iff.mp hrow with ⟨hl, _⟩
        exact hl
      rw [List.getElem?_set_self hlt, hrow]
      show (row.set c.1 v)[cq.1]? = row[cq.1]?
      exact List.getElem?_set_ne hx
    · rw [List.getElem?_set_ne (fun hcon => hy hcon.symm)]

theorem lastWrite_cons (wr : (Nat × Nat) × String) (t : List ((Nat × Nat) × String))
    (c : Nat × Nat) :
    lastWrite (wr :: t) c =
      match lastWrite t c with
      | some v => some v
      | none => if wr.1 = c then some wr.2 else none := rfl

theorem lastWrite_eq_some_mem {ws : List ((Nat × Nat) × String)} {c : Nat × Nat}
    {v : String} (h : lastWrite ws c = some v) : ∃ wr ∈ ws, wr.1 = c ∧ wr.2 = v := by
  induction ws with
  | nil => exact absurd h (by simp [lastWrite])
  | cons wr t ih =>
    rw [lastWrite_cons] at h
    cases ht : lastWrite t c with
    | some u =>
      rw [ht] at h
      obtain rfl : u = v := Option.some_inj.mp h
      obtain ⟨wq, hq, hc, hv⟩ := ih ht
      exact ⟨wq, List.mem_cons_of_mem wr hq, hc, hv⟩
    | none =>
      rw [ht] at h
      by_cases hc : wr.1 = c
      · rw [if_pos hc] at h
        exact ⟨wr, List.mem_cons_self wr t, hc, Option.some_inj.mp h⟩
      · rw [if_neg hc] at h
        exact absurd h (by simp)

theorem stageDims_foldWrites {ws : List ((Nat × Nat) × String)} :
    ∀ {st : Stage} {w h : Nat}, stageDims st w h →
      stageDims (ws.foldl (fun acc wr => stageWrite acc wr.1 wr.2) st) w h := by
  induction ws with
  | nil => exact fun hd => hd
  | cons wr t ih => exact fun hd => ih (stageDims_stageWrite hd wr.1 wr.2)

theorem cellAt_foldWrites {c : Nat × Nat} {w h : Nat}
    (ws : List ((Nat × Nat) × String)) :
    ∀ (st : Stage), stageDims st w h → c.1 < w → c.2 < h →
      cellAt (ws.foldl (fun acc wr => stageWrite acc wr.1 wr.2) st) c =
        match lastWrite ws c with
        | some v => some v
        | none => cellAt st c := by
  induction ws with
  | nil => intro st hd hx hy; rfl
  | cons wr t ih =>
    intro st hd hx hy
    show cellAt (t.foldl (fun acc wr => stageWrite acc wr.1 wr.2) (stageWrite st wr.1 wr.2)) c = _
    rw [ih (stageWrite st wr.1 wr.2) (stageDims_stageWrite hd wr.1 wr.2) hx hy,
      lastWrite_cons]
    cases ht : lastWrite t c with
    | some v => rfl
    | none =>
      by_cases hc : wr.1 = c
      · rw [if_pos hc, hc]
        exact cellAt_stageWrite_self hd hx hy wr.2
      · rw [if_neg hc]
        exact cellAt_stageWrite_other (fun hcon => hc hcon.symm) wr.2

/-- On a positive-size scene every cell an entity writes is inside the
stage. -/
theorem entityWrites_bounds {scene : Scene} {e : Entity}
    (hw : 0 < scene.size.1) (hh : 0 < scene.size.2) :
    ∀ wr ∈ entityWrites scene e,
      wr.1.1 < scene.size.1.toNat ∧ wr.1.2 < scene.size.2.toNat := by
  intro wr hwr
  unfold entityWrites at hwr
  rw [List.mem_flatMap] at hwr
  obtain ⟨x, _, hwr⟩ := hwr
  rw [List.mem_filterMap] at hwr
  obtain ⟨y, _, hmap⟩ := hwr
  cases hp : entityPixel scene e x y with
  | none => rw [hp] at hmap; simp at hmap
  | some p =>
    rw [hp] at hmap
    simp only [Option.map_some'] at hmap
    obtain rfl := Option.some_inj.mp hmap
    have b1 := fmod_nonneg_of_pos (e.pos.1 + (x : Int)) hw
    have b2 := fmod_lt_of_pos (e.pos.1 + (x : Int)) hw
    have b3 := fmod_nonneg_of_pos (e.pos.2 + (y : Int)) hh
    have b4 := fmod_lt_of_pos (e.pos.2 + (y : Int)) hh
    constructor <;> simp only [] <;> omega

/-- Claim C1: on a scene holding exactly two entities with distinct layers
(in either insertion order), the render paints candidates in descending
layer order, so the smaller-layer entity is painted last and its final write
at a cell that both entities paint is the value visible in the returned
stage. -/
theorem render_paint_order (scene : Scene) (a b : Entity)
    (hch : scene.children = [a, b] ∨ scene.children = [b, a])
    (hlayer : a.layer < b.layer)
    (hw : 0 < scene.size.1) (hh : 0 < scene.size.2)
    (c : Nat × Nat) (v : String)
    (ha : lastWrite (entityWrites scene a) c = some v)
    (_hb : lastWrite (entityWrites scene b) c ≠ none) :
    cellAt (renderStage scene []) c = some v := by
  have hcand : candidates scene [] = scene.children := by simp [candidates]
  have hnb : ¬ b.layer ≤ a.layer := by omega
  have hab : a.layer ≤ b.layer := by omega
  have hsort : sortLayerDesc (candidates scene []) = [b, a] := by
    rw [hcand]
    rcases hch with h | h <;> rw [h]
    · simp [sortLayerDesc, insertDesc, hnb]
    · simp [sortLayerDesc, insertDesc, hab]
  obtain ⟨wr, hmem, hc1, _⟩ := lastWrite_eq_some_mem ha
  have hbnd := entityWrites_bounds hw hh wr hmem
  rw [hc1] at hbnd
  have hd0 := stageDims_initStage scene
  have hd1 : stageDims (paintEntity scene (initStage scene) b)
      scene.size.1.toNat scene.size.2.toNat := stageDims_foldWrites hd0
  rw [renderStage, hsort]
  show cellAt (paintEntity scene (paintEntity scene (initStage scene) b) a) c = some v
  rw [paintEntity, cellAt_foldWrites (entityWrites scene a) _ hd1 hbnd.1 hbnd.2, ha]

/-- Witness for C1: both entities paint cell `(0, 0)`; the layer-2 entity's
pixel `"A"` is the one visible. -/
theorem render_paint_order_witness :
    cellAt (renderStage paintScene []) (0, 0) = some "A" :=
  render_paint_order paintScene paintA paintB (Or.inl rfl) (by decide) (by decide)
    (by decide) (0, 0) "A" (by decide) (by decide)

theorem empty_append_str (s : String) : "" ++ s = s := by
  cases s with
  | mk d => rfl

theorem append_empty_str (s : String) : s ++ "" = s := by
  cases s with
  | mk d =>
    show String.mk (d ++ []) = String.mk d
    rw [List.append_nil]

theorem splitNLChars_space_newline (l : List Char) :
    splitNLChars (' ' :: '\n' :: l) = " " :: splitNLChars l := by
  have hs : String.singleton ' ' ++ "" = " " := rfl
  simp [splitNLChars, hs]

theorem splitNL_hiddenImage (n : Nat) :
    splitNL (hiddenImage n) = List.replicate n " " ++ [""] := by
  induction n with
  | zero => rfl
  | succ k ih =>
    have hdata : (hiddenImage (k + 1)).data = ' ' :: '\n' :: (hiddenImage k).data := by
      show ((" \n" : String) ++ hiddenImage k).data = _
      rw [String.data_append]
      rfl
    have ih' : splitNLChars (hiddenImage k).data = List.replicate k " " ++ [""] := ih
    unfold splitNL
    rw [hdata, splitNLChars_space_newline, ih']
    rfl

theorem pixelAt_blank (n x y : Nat) :
    pixelAt (List.replicate n " " ++ [""]) x y = " " := by
  unfold pixelAt
  cases hrow : (List.replicate n (" " : String) ++ [""])[y]? with
  | none => rfl
  | some row =>
    have hmem := List.getElem?_mem hrow
    rw [List.mem_append] at hmem
    have hcases : row = " " ∨ row = "" := by
      rcases hmem with hm | hm
      · exact Or.inl (List.eq_of_mem_replicate hm)
      · exact Or.inr (by simpa using hm)
    rcases hcases with rfl | rfl
    · cases x with
      | zero => rfl
      | succ k => rfl
    · rfl

/-- Claim C5 as amended: a hidden entity contributes no content of its own
in exactly these cases: a hidden transparent sprite (without extra
characters) performs no stage write at all, and a hidden uncoloured plain
entity writes precisely the scene's background representation (when the
background holds no void character), so every cell it covers shows the
background or whatever other entities paint.  (A hidden non-transparent
sprite instead writes spaces, and a coloured hidden entity wraps the
background in its own colour codes — the counterexample.) -/
theorem hidden_entity_no_own_content (scene : Scene) (e : Entity)
    (hhid : e.hidden = true) :
    (∀ img extras, e.kind = .sprite img true extras → extras = [] →
        entityWrites scene e = []) ∧
      (∀ f, e.kind = .plain f → e.colour = "" →
        replaceVoid (get_background scene) = get_background scene →
        ∀ wr ∈ entityWrites scene e, wr.2 = get_background scene) := by
  constructor
  · intro img extras hkind hext
    subst hext
    have hpad : ∀ lines : List String, padExtras lines [] = lines := by
      intro lines
      cases lines <;> rfl
    have hlines : spriteLines e img [] = List.replicate e.size.2.toNat " " ++ [""] := by
      unfold spriteLines
      rw [hhid, if_pos rfl, hpad]
      exact splitNL_hiddenImage _
    have hpix : ∀ x y, entityPixel scene e x y = none := by
      intro x y
      unfold entityPixel
      rw [hkind]
      dsimp only
      rw [hlines, pixelAt_blank]
      simp
    unfold entityWrites
    rw [List.flatMap_eq_nil_iff]
    intro x _
    rw [List.filterMap_eq_nil_iff]
    intro y _
    rw [hpix x y]
    rfl
  · intro f hkind hcol hbg wr hwr
    unfold entityWrites at hwr
    rw [List.mem_flatMap] at hwr
    obtain ⟨x, _, hwr⟩ := hwr
    rw [List.mem_filterMap] at hwr
    obtain ⟨y, _, hmap⟩ := hwr
    have hpix : entityPixel scene e x y = some (get_background scene) := by
      unfold entityPixel
      rw [hkind]
      dsimp only
      rw [hhid]
      simp
    rw [hpix] at hmap
    simp only [Option.map_some'] at hmap
    obtain rfl := Option.some_inj.mp hmap
    show cellValue e.colour (get_background scene) = get_background scene
    unfold cellValue
    rw [hcol, hbg, empty_append_str, if_neg (fun hcon => hcon rfl), append_empty_str]

/-- Witness for the amended C5: the hidden transparent sprite writes
nothing, and every write of the hidden uncoloured plain entity is the
background representation. -/
theorem hidden_entity_no_own_content_witness :
    hiddenSpriteW.hidden = true ∧ entityWrites hiddenScene hiddenSpriteW = [] ∧
      (∀ wr ∈ entityWrites hiddenScene hiddenPlainW, wr.2 = get_background hiddenScene) := by
  refine ⟨rfl, ?_, ?_⟩
  · exact (hidden_entity_no_own_content hiddenScene hiddenSpriteW rfl).1 "A" [] rfl rfl
  · exact (hidden_entity_no_own_content hiddenScene hiddenPlainW rfl).2 "P" rfl rfl (by decide)

/-- Counterexample to claim C5 as stated: a hidden sprite with transparency
off paints a space over every cell it covers (its hidden image is the
all-space buffer, and spaces are only skipped when transparent), so the
returned stage shows `" "` at the covered cell — neither the scene's
background representation `"░"` nor content painted beneath by any
larger-layer entity. -/
theorem hidden_sprite_paints_space_cex :
    renderStage hiddenCexScene [] = [[" "]] ∧
      get_background hiddenCexScene = "░" ∧ (" " : String) ≠ "░" :=
  ⟨by decide, rfl, by decide⟩

theorem stepCollide_zero (scene : Scene) (bake : Stage) (esize : Int × Int)
    (ecoll : List Int) (ax : Axis) (st : (Int × Int) × Bool) :
    stepCollide scene bake esize ecoll ax 0 st = st := by
  unfold stepCollide
  rw [if_pos rfl]

/-- A movement whose very first unit step along the axis hits an occupied
cell on the leading edge advances zero steps (the position only passes once
more through the correcting setter, the identity on an in-range position)
and records the collision. -/
theorem stepCollide_blocked_first (scene : Scene) (bake : Stage) (esize : Int × Int)
    (ecoll : List Int) (ax : Axis) {p : Int} (hp : p ≠ 0) {pos : Int × Int} (hc : Bool)
    (hx0 : 0 ≤ pos.1) (hx1 : pos.1 < scene.size.1)
    (hy0 : 0 ≤ pos.2) (hy1 : pos.2 < scene.size.2)
    (hhit : edgeHit scene bake esize ecoll ax p pos 0 = true) :
    stepCollide scene bake esize ecoll ax p (pos, hc) = (pos, true) := by
  unfold stepCollide
  rw [if_neg hp]
  obtain ⟨k, hk⟩ : ∃ k, p.natAbs = k + 1 :=
    ⟨p.natAbs - 1, by have := Int.natAbs_ne_zero.mpr hp; omega⟩
  rw [hk, List.range_succ_eq_map]
  dsimp only
  rw [List.find?_cons, List.any_cons, hhit]
  dsimp only
  have hvec : Axis.vector ax ((Nat.cast 0) * (if 0 < p then 1 else -1)) 0 = ((0 : Int), (0 : Int)) := by
    cases ax <;> simp [Axis.vector]
  rw [hvec]
  have haddp : addPos pos ((0 : Int), (0 : Int)) = pos := by
    simp [addPos]
  rw [haddp, correctPosPair_eq_self hx0 hx1 hy0 hy1]
  simp

/-- When the collision flag entering a `step_collide` call is already set it
stays set, whatever the step does. -/
theorem stepCollide_snd_true (scene : Scene) (bake : Stage) (esize : Int × Int)
    (ecoll : List Int) (ax : Axis) (p : Int) (pos : Int × Int) :
    (stepCollide scene bake esize ecoll ax p (pos, true)).2 = true := by
  unfold stepCollide
  by_cases hp : p = 0
  · rw [if_pos hp]
  · rw [if_neg hp]
    dsimp only
    rw [Bool.true_or]

/-- A `step_collide` call leaves the position in range: either it does not
touch it (zero delta) or it routes it through the wraparound-correcting
setter, whose output lies in `[0, size)` on a positive-size scene. -/
theorem stepCollide_fst_range (scene : Scene) (bake : Stage) (esize : Int × Int)
    (ecoll : List Int) (ax : Axis) (p : Int) (pos : Int × Int) (b : Bool)
    (hw : 0 < scene.size.1) (hh : 0 < scene.size.2)
    (hx0 : 0 ≤ pos.1) (hx1 : pos.1 < scene.size.1)
    (hy0 : 0 ≤ pos.2) (hy1 : pos.2 < scene.size.2) :
    0 ≤ (stepCollide scene bake esize ecoll ax p (pos, b)).1.1 ∧
      (stepCollide scene bake esize ecoll ax p (pos, b)).1.1 < scene.size.1 ∧
      0 ≤ (stepCollide scene bake esize ecoll ax p (pos, b)).1.2 ∧
      (stepCollide scene bake esize ecoll ax p (pos, b)).1.2 < scene.size.2 := by
  unfold stepCollide
  by_cases hp : p = 0
  · rw [if_pos hp]
    exact ⟨hx0, hx1, hy0, hy1⟩
  · rw [if_neg hp]
    dsimp only
    exact ⟨fmod_nonneg_of_pos _ hw, fmod_lt_of_pos _ hw,
      fmod_nonneg_of_pos _ hh, fmod_lt_of_pos _ hh⟩

/-- Stepping along the Y axis never changes the x coordinate of an in-range
position: the added vector has a zero x component and the correcting setter
is the identity there. -/
theorem stepCollide_Y_fst_x (scene : Scene) (bake : Stage) (esize : Int × Int)
    (ecoll : List Int) (p : Int) (pos : Int × Int) (b : Bool)
    (hx0 : 0 ≤ pos.1) (hx1 : pos.1 < scene.size.1) :
    (stepCollide scene bake esize ecoll .Y p (pos, b)).1.1 = pos.1 := by
  unfold stepCollide
  by_cases hp : p = 0
  · rw [if_pos hp]
  · rw [if_neg hp]
    dsimp only
    simp [correctPosPair, addPos, Axis.vector, fmod_eq_self hx0 hx1]

/-- Claim C3: an attached entity with collisions enabled whose requested
movement along an axis is blocked one unit step away on its leading edge
(some leading-edge cell of the bake tests occupied) has `move` return 1,
advance zero steps on that axis, and fire no `move_functions` callbacks.
The X axis is stepped first from the entity's position; the Y axis is
stepped from wherever the X pass left the entity, which is where the code
performs the Y leading-edge test, so the Y-axis hypothesis and conclusion
are phrased at that intermediate position (the entity's own position when
no X movement is requested). -/
theorem entity_move_blocked (scene : Scene) (e : Entity) (mv : Int × Int)
    (collide : Option Bool) (rf : Bool)
    (hcol : resolveCollide e collide = true)
    (hx0 : 0 ≤ e.pos.1) (hx1 : e.pos.1 < scene.size.1)
    (hy0 : 0 ≤ e.pos.2) (hy1 : e.pos.2 < scene.size.2) :
    (mv.1 ≠ 0 →
      edgeHit scene (renderStage (hideSelf scene e) e.collisions) e.size e.collisions
          .X mv.1 e.pos 0 = true →
      (entityMove scene e mv collide rf).pos.1 = e.pos.1 ∧
        (entityMove scene e mv collide rf).ret = 1 ∧
        (entityMove scene e mv collide rf).ranFunctions = false) ∧
    (mv.2 ≠ 0 →
      edgeHit scene (renderStage (hideSelf scene e) e.collisions) e.size e.collisions
          .Y mv.2
          (stepCollide scene (renderStage (hideSelf scene e) e.collisions) e.size
            e.collisions .X mv.1 (e.pos, false)).1 0 = true →
      (entityMove scene e mv collide rf).pos =
          (stepCollide scene (renderStage (hideSelf scene e) e.collisions) e.size
            e.collisions .X mv.1 (e.pos, false)).1 ∧
        (entityMove scene e mv collide rf).ret = 1 ∧
        (entityMove scene e mv collide rf).ranFunctions = false) := by
  have hw : 0 < scene.size.1 := lt_of_le_of_lt hx0 hx1
  have hh : 0 < scene.size.2 := lt_of_le_of_lt hy0 hy1
  constructor
  · intro hdx hblock
    have hmv : mv ≠ ((0 : Int), (0 : Int)) := by
      intro hcon
      rw [hcon] at hdx
      exact hdx rfl
    unfold entityMove
    rw [hcol]
    dsimp only
    rw [if_neg hmv, if_pos rfl]
    rw [stepCollide_blocked_first scene _ e.size e.collisions .X hdx false hx0 hx1 hy0 hy1 hblock]
    refine ⟨?_, ?_, ?_⟩
    · exact stepCollide_Y_fst_x scene _ e.size e.collisions mv.2 e.pos true hx0 hx1
    · rw [stepCollide_snd_true]
      rfl
    · rw [stepCollide_snd_true]
      simp
  · intro hdy hblock
    have hmv : mv ≠ ((0 : Int), (0 : Int)) := by
      intro hcon
      rw [hcon] at hdy
      exact hdy rfl
    have hrange := stepCollide_fst_range scene
      (renderStage (hideSelf scene e) e.collisions) e.size e.collisions .X mv.1
      e.pos false hw hh hx0 hx1 hy0 hy1
    have hst : stepCollide scene (renderStage (hideSelf scene e) e.collisions) e.size
        e.collisions .Y mv.2
        (stepCollide scene (renderStage (hideSelf scene e) e.collisions) e.size
          e.collisions .X mv.1 (e.pos, false)) =
        ((stepCollide scene (renderStage (hideSelf scene e) e.collisions) e.size
          e.collisions .X mv.1 (e.pos, false)).1, true) :=
      stepCollide_blocked_first scene (renderStage (hideSelf scene e) e.collisions)
        e.size e.collisions .Y hdy
        (stepCollide scene (renderStage (hideSelf scene e) e.collisions) e.size
          e.collisions .X mv.1 (e.pos, false)).2
        hrange.1 hrange.2.1 hrange.2.2.1 hrange.2.2.2 hblock
    unfold entityMove
    rw [hcol]
    dsimp only
    rw [if_neg hmv, if_pos rfl]
    rw [hst]
    exact ⟨rfl, rfl, by simp⟩

/-- Witness for C3 on both axes: the mover at `(0, 0)` asked to move by
`(1, 0)` into the blocker on its right keeps `x = 0`, returns 1 and fires no
callbacks; the mover asked to move by `(0, 1)` into the blocker below it
stays at the post-X position `(0, 0)`, returns 1 and fires no callbacks. -/
theorem entity_move_blocked_witness :
    ((entityMove moveScene moverM (1, 0) none true).pos.1 = moverM.pos.1 ∧
      (entityMove moveScene moverM (1, 0) none true).ret = 1 ∧
      (entityMove moveScene moverM (1, 0) none true).ranFunctions = false) ∧
    ((entityMove moveSceneY moverV (0, 1) none true).pos =
        (stepCollide moveSceneY (renderStage (hideSelf moveSceneY moverV) moverV.collisions)
          moverV.size moverV.collisions .X 0 (moverV.pos, false)).1 ∧
      (entityMove moveSceneY moverV (0, 1) none true).ret = 1 ∧
      (entityMove moveSceneY moverV (0, 1) none true).ranFunctions = false) := by
  constructor
  · exact (entity_move_blocked moveScene moverM (1, 0) none true rfl (by decide)
      (by decide) (by decide) (by decide)).1 (by decide) (by decide)
  · exact (entity_move_blocked moveSceneY moverV (0, 1) none true rfl (by decide)
      (by decide) (by decide) (by decide)).2 (by decide) (by decide)

end Gemini

